import Mathlib

/-!
Verification of the network-interface statistics engine (internal/stat/netdev.go):
snapshot acquisition (local and remote), the pseudo-interface name filter, and
the two-snapshot delta computation `countNetdevsUsage`.

Modelling conventions:
* Go `float64` counters are modelled as `ℚ` (the code performs only field
  arithmetic, `math.Min` and `math.Max` on them); `uint32`/`uint8` as `ℕ`.
* A Go `nil` slice result is modelled as `Option.none`, a real slice as `some`.
* File/database I/O is abstracted: acquisition functions take the list of
  successfully scanned rows, the sampled uptime and the link-settings oracle
  as parameters, and model the filtering/enrichment loop that follows.
-/

/-- Container for stats of a single network interface (struct `Netdev`). -/
structure Netdev where
  Ifname : String
  Speed : Nat
  Duplex : Nat
  Rbytes : ℚ
  Rpackets : ℚ
  Rerrs : ℚ
  Rdrop : ℚ
  Rfifo : ℚ
  Rframe : ℚ
  Rcompressed : ℚ
  Rmulticast : ℚ
  Tbytes : ℚ
  Tpackets : ℚ
  Terrs : ℚ
  Tdrop : ℚ
  Tfifo : ℚ
  Tcolls : ℚ
  Tcarrier : ℚ
  Tcompressed : ℚ
  Packets : ℚ
  Raverage : ℚ
  Taverage : ℚ
  Saturation : ℚ
  Rutil : ℚ
  Tutil : ℚ
  Utilization : ℚ
  Uptime : ℚ
  deriving DecidableEq

/-- The zero value of `Netdev`: what `make([]Netdev, n)` fills slots with. -/
def Netdev.empty : Netdev :=
  { Ifname := "", Speed := 0, Duplex := 0,
    Rbytes := 0, Rpackets := 0, Rerrs := 0, Rdrop := 0, Rfifo := 0, Rframe := 0,
    Rcompressed := 0, Rmulticast := 0,
    Tbytes := 0, Tpackets := 0, Terrs := 0, Tdrop := 0, Tfifo := 0, Tcolls := 0,
    Tcarrier := 0, Tcompressed := 0,
    Packets := 0, Raverage := 0, Taverage := 0, Saturation := 0,
    Rutil := 0, Tutil := 0, Utilization := 0, Uptime := 0 }

instance : Inhabited Netdev := ⟨Netdev.empty⟩

/-- Modelled from the spec: the duplex constant for half duplex. The constants
`duplexHalf`/`duplexFull`/`duplexUnknown` are declared elsewhere in the `stat`
package (not under src/); spec section 6 gives the encoding
`{0=half, 1=full, other=unknown}`. -/
def duplexHalf : Nat := 0

/-- Modelled from the spec: the duplex constant for full duplex
(`{0=half, 1=full, other=unknown}`, spec section 6). -/
def duplexFull : Nat := 1

/-- Modelled from the spec: a representative "unknown" duplex value; any value
other than `duplexHalf` and `duplexFull` means unknown (spec section 6). -/
def duplexUnknown : Nat := 2

/-- Modelled from the spec: the rate helper `sValue` is declared elsewhere in
the `stat` package (not under src/); spec section 4.3 step 3 gives
`rate = (current.value - previous.value) / itv`, scaled by the ticks factor. -/
def sValue (pv cv itv ticks : ℚ) : ℚ :=
  (cv - pv) / itv * ticks

/-- The body of `countNetdevsUsage`'s loop for one index: the derived entry
computed from the previous and current samples of one interface. An inactive
interface (zero received+transmitted packets in `curr`) is skipped, leaving
the zero-initialized slot. -/
def countNetdevUsageOne (ticks : ℚ) (p c : Netdev) : Netdev :=
  if c.Rpackets + c.Tpackets = 0 then Netdev.empty
  else
    let itv := c.Uptime - p.Uptime
    let rbytes := sValue p.Rbytes c.Rbytes itv ticks
    let tbytes := sValue p.Tbytes c.Tbytes itv ticks
    let rpackets := sValue p.Rpackets c.Rpackets itv ticks
    let tpackets := sValue p.Tpackets c.Tpackets itv ticks
    { Netdev.empty with
      Ifname := c.Ifname,
      Rbytes := rbytes,
      Tbytes := tbytes,
      Rpackets := rpackets,
      Tpackets := tpackets,
      Rerrs := sValue p.Rerrs c.Rerrs itv ticks,
      Terrs := sValue p.Terrs c.Terrs itv ticks,
      Tcolls := sValue p.Tcolls c.Tcolls itv ticks,
      Saturation := sValue p.Saturation c.Saturation itv ticks,
      Speed := c.Speed,
      Duplex := c.Duplex,
      Raverage := if 0 < rpackets then rbytes / rpackets else 0,
      Taverage := if 0 < tpackets then tbytes / tpackets else 0,
      Packets := c.Rpackets + c.Tpackets,
      Rutil := if 0 < c.Speed then min (rbytes * 800 / (c.Speed : ℚ)) 100 else 0,
      Tutil := if 0 < c.Speed then min (tbytes * 800 / (c.Speed : ℚ)) 100 else 0,
      Utilization :=
        if 0 < c.Speed then
          if c.Duplex = duplexFull then
            max (min (rbytes * 800 / (c.Speed : ℚ)) 100)
              (min (tbytes * 800 / (c.Speed : ℚ)) 100)
          else if c.Duplex = duplexHalf then
            min ((rbytes + tbytes) * 800 / (c.Speed : ℚ)) 100
          else 0
        else 0 }

/-- `countNetdevsUsage(prev, curr, ticks)`: `none` models the Go `nil` slice
returned when the two snapshots have different lengths; otherwise the result
slice has one derived entry per index. -/
def countNetdevsUsage (prev curr : List Netdev) (ticks : ℚ) : Option (List Netdev) :=
  if curr.length ≠ prev.length then none
  else some (List.zipWith (countNetdevUsageOne ticks) prev curr)

/-- `listStartsWith pat s`: `pat` is a leading segment of `s`. -/
def listStartsWith : List Char → List Char → Bool
  | [], _ => true
  | _ :: _, [] => false
  | p :: ps, c :: cs => p = c && listStartsWith ps cs

/-- `listHasSub pat s`: `pat` occurs contiguously somewhere inside `s`. -/
def listHasSub (pat : List Char) : List Char → Bool
  | [] => listStartsWith pat []
  | s₀ :: rest => listStartsWith pat (s₀ :: rest) || listHasSub pat rest

/-- The pseudo-device filter: `regexp.MustCompile("docker|virbr|veth")`
matches a name exactly when the name contains one of the three literal
substrings. -/
def isPseudoNetdev (name : String) : Bool :=
  listHasSub "docker".toList name.toList ||
    listHasSub "virbr".toList name.toList ||
    listHasSub "veth".toList name.toList

/-- One successfully scanned record: the interface name and the 16 raw
counters, exactly the fields filled by `fmt.Sscanln` (local) and `rows.Scan`
(remote). -/
structure NetdevRow where
  ifname : String
  rbytes : ℚ
  rpackets : ℚ
  rerrs : ℚ
  rdrop : ℚ
  rfifo : ℚ
  rframe : ℚ
  rcompressed : ℚ
  rmulticast : ℚ
  tbytes : ℚ
  tpackets : ℚ
  terrs : ℚ
  tdrop : ℚ
  tfifo : ℚ
  tcolls : ℚ
  tcarrier : ℚ
  tcompressed : ℚ
  deriving DecidableEq

/-- The `Netdev` value `var n = Netdev{}` holds after scanning a row: the
scanned fields are set, every other field keeps its zero value. -/
def rowToNetdev (r : NetdevRow) : Netdev :=
  { Netdev.empty with
    Ifname := r.ifname,
    Rbytes := r.rbytes, Rpackets := r.rpackets, Rerrs := r.rerrs, Rdrop := r.rdrop,
    Rfifo := r.rfifo, Rframe := r.rframe, Rcompressed := r.rcompressed,
    Rmulticast := r.rmulticast,
    Tbytes := r.tbytes, Tpackets := r.tpackets, Terrs := r.terrs, Tdrop := r.tdrop,
    Tfifo := r.tfifo, Tcolls := r.tcolls, Tcarrier := r.tcarrier,
    Tcompressed := r.tcompressed }

/-- The enrichment the local acquisition applies to a retained sample:
saturation is pre-computed from six error/drop counters, the host uptime is
stamped, and speed/duplex come from `GetLinkSettings` (zeros on error, so the
oracle returns the pair directly). -/
def enrichLocal (uptime : ℚ) (link : String → Nat × Nat) (r : NetdevRow) : Netdev :=
  let n := rowToNetdev r
  { n with
    Saturation := n.Rerrs + n.Rdrop + n.Tdrop + n.Tfifo + n.Tcolls + n.Tcarrier,
    Uptime := uptime,
    Speed := (link n.Ifname).1,
    Duplex := (link n.Ifname).2 }

/-- `readNetdevsLocal`, after file open and line scanning succeed: each scanned
row is dropped when its name matches the pseudo-device filter, and otherwise
enriched and appended in order. -/
def readNetdevsLocal (rows : List NetdevRow) (uptime : ℚ)
    (link : String → Nat × Nat) : List Netdev :=
  (rows.filter fun r => !(isPseudoNetdev r.ifname)).map (enrichLocal uptime link)

/-- The enrichment the remote acquisition applies to a retained sample: uptime
is stamped and speed/duplex come from the per-interface link-settings query.
`Saturation` is never assigned on this path. -/
def enrichRemote (uptime : ℚ) (sd : Nat × Nat) (r : NetdevRow) : Netdev :=
  { rowToNetdev r with Uptime := uptime, Speed := sd.1, Duplex := sd.2 }

/-- `readNetdevsRemote`, after the stats query succeeds: each scanned row is
dropped when its name matches the pseudo-device filter; otherwise the
link-settings query runs for it (any failure is fatal for the whole
acquisition) and the enriched sample is appended in order. -/
def readNetdevsRemote (uptime : ℚ) (link : String → Except String (Nat × Nat)) :
    List NetdevRow → Except String (List Netdev)
  | [] => Except.ok []
  | r :: rs =>
    if isPseudoNetdev r.ifname then readNetdevsRemote uptime link rs
    else
      match link r.ifname with
      | Except.error e => Except.error e
      | Except.ok sd =>
        match readNetdevsRemote uptime link rs with
        | Except.error e => Except.error e
        | Except.ok rest => Except.ok (enrichRemote uptime sd r :: rest)

/-- `readNetdevs(db, schemaExists)`: dispatch between the local and the remote
source. The two acquisitions are passed as the outcomes they would produce;
when the target is not local and the schema confirmation is false, the result
is an empty snapshot with no error. -/
def readNetdevs (isLocal schemaExists : Bool)
    (localAcq remoteAcq : Except String (List Netdev)) :
    Except String (List Netdev) :=
  if isLocal then localAcq
  else if schemaExists then remoteAcq
  else Except.ok []

/-! ### Shared helper lemmas -/

theorem countNetdevsUsage_eq_zipWith (prev curr : List Netdev) (ticks : ℚ)
    (hlen : curr.length = prev.length) :
    countNetdevsUsage prev curr ticks
      = some (List.zipWith (countNetdevUsageOne ticks) prev curr) := by
  simp [countNetdevsUsage, hlen]

theorem countNetdevsUsage_entry (prev curr : List Netdev) (ticks : ℚ) (i : Nat)
    (hlen : curr.length = prev.length) (hic : i < curr.length) (hip : i < prev.length) :
    ∃ st, countNetdevsUsage prev curr ticks = some st ∧ st.length = curr.length ∧
      st[i]? = some (countNetdevUsageOne ticks prev[i] curr[i]) := by
  have hz : i < (List.zipWith (countNetdevUsageOne ticks) prev curr).length := by
    simp [List.length_zipWith]; omega
  refine ⟨_, countNetdevsUsage_eq_zipWith prev curr ticks hlen, ?_, ?_⟩
  · simp [List.length_zipWith]; omega
  · rw [List.getElem?_eq_getElem hz, List.getElem_zipWith]

theorem sValue_nonneg (pv cv itv ticks : ℚ) (hle : pv ≤ cv) (hitv : 0 < itv)
    (hticks : 0 ≤ ticks) : 0 ≤ sValue pv cv itv ticks := by
  unfold sValue
  exact mul_nonneg (div_nonneg (by linarith) hitv.le) hticks

/-! ### Concrete samples used in witnesses and counterexamples -/

def prevSample : Netdev :=
  { Netdev.empty with
    Ifname := "eth0", Rbytes := 1000, Tbytes := 500,
    Rpackets := 4, Tpackets := 2, Uptime := 1 }

def currSample : Netdev :=
  { Netdev.empty with
    Ifname := "eth0", Rbytes := 2000, Tbytes := 1500,
    Rpackets := 10, Tpackets := 5, Uptime := 2, Speed := 1000, Duplex := 1 }

/-! ### Claims -/

/-- Claim C1, counterexample to the claim as stated: with `len(previous) = 3`
and `len(current) = 4`, `countNetdevsUsage` returns the Go `nil` slice
(modelled `none`) — a silently empty result, not a distinguishable
`SnapshotShapeMismatch` error (its return type carries no error at all). -/
theorem claim_C1_cex :
    countNetdevsUsage (List.replicate 3 Netdev.empty) (List.replicate 4 Netdev.empty) 1
      = none := by
  simp [countNetdevsUsage]

/-- Claim C1, amended: for every pair of snapshots with differing lengths,
`countNetdevsUsage` returns the Go `nil` slice (modelled `none`) and signals
no error; a caller cannot distinguish this from "no interfaces". -/
theorem claim_C1 (prev curr : List Netdev) (ticks : ℚ)
    (hlen : curr.length ≠ prev.length) :
    countNetdevsUsage prev curr ticks = none := by
  simp [countNetdevsUsage, hlen]

/-- Witness for C1 at a concrete input: one snapshot empty, the other not. -/
theorem claim_C1_witness : countNetdevsUsage [] [Netdev.empty] 1 = none :=
  claim_C1 [] [Netdev.empty] 1 (by simp)

/-- Claim C2, counterexample to the claim as stated: for an inactive interface
(zero packets in `current`), the output entry is the zero value of `Netdev`,
whose name is the empty string — not `current[i].Ifname` ("eth0"): the name
is not populated. -/
theorem claim_C2_cex :
    countNetdevsUsage [Netdev.empty] [{ Netdev.empty with Ifname := "eth0" }] 1
        = some [Netdev.empty]
      ∧ Netdev.empty.Ifname = ""
      ∧ ({ Netdev.empty with Ifname := "eth0" } : Netdev).Ifname ≠ Netdev.empty.Ifname := by
  refine ⟨?_, rfl, by simp [Netdev.empty]⟩
  simp [countNetdevsUsage, countNetdevUsageOne, Netdev.empty]

/-- Claim C2, amended: for every index `i` with
`current[i].Rpackets + current[i].Tpackets == 0`, the delta output entry at
index `i` is entirely the zero value — including an empty interface name, the
one divergence from the claim — and the entry is not omitted, so positional
alignment with the inputs is preserved. -/
theorem claim_C2 (prev curr : List Netdev) (ticks : ℚ) (i : Nat)
    (hlen : curr.length = prev.length) (hic : i < curr.length)
    (hz : (curr[i]).Rpackets + (curr[i]).Tpackets = 0) :
    ∃ st, countNetdevsUsage prev curr ticks = some st ∧ st.length = curr.length ∧
      st[i]? = some Netdev.empty := by
  obtain ⟨st, h1, h2, h3⟩ :=
    countNetdevsUsage_entry prev curr ticks i hlen hic (hlen ▸ hic)
  refine ⟨st, h1, h2, ?_⟩
  rw [h3]
  unfold countNetdevUsageOne
  rw [if_pos hz]

/-- Witness for C2 at a concrete input: an inactive interface named "lo". -/
theorem claim_C2_witness :
    ∃ st, countNetdevsUsage [Netdev.empty] [{ Netdev.empty with Ifname := "lo" }] 1
        = some st ∧ st.length = 1 ∧ st[0]? = some Netdev.empty :=
  claim_C2 [Netdev.empty] [{ Netdev.empty with Ifname := "lo" }] 1 0 rfl (by simp)
    (by simp [Netdev.empty])

/-- Claim C9: against a non-local target whose schema confirmation is false,
`readNetdevs` returns an empty snapshot and no error, while a remote source
outage (schema confirmed, remote acquisition failing) propagates as an error. -/
theorem claim_C9 (localAcq remoteAcq : Except String (List Netdev)) :
    readNetdevs false false localAcq remoteAcq = Except.ok []
      ∧ (∀ msg, readNetdevs false false localAcq remoteAcq ≠ Except.error msg)
      ∧ (∀ msg, readNetdevs false true localAcq (Except.error msg) = Except.error msg) := by
  refine ⟨rfl, ?_, fun msg => rfl⟩
  intro msg h
  simp [readNetdevs] at h

/-- Claim C3: for equal-length snapshots, an active entry's rate fields
(received/transmitted bytes, packets, errors, transmit collisions,
saturation) each equal `(curr - prev) / itv * ticks` for the per-entry
interval `itv = curr.Uptime - prev.Uptime > 0`, and each is non-negative
whenever the current counter is at least the previous one (with the
non-negative ticks factor). -/
theorem claim_C3 (prev curr : List Netdev) (ticks : ℚ) (i : Nat)
    (hlen : curr.length = prev.length) (hic : i < curr.length) (hip : i < prev.length)
    (hact : ¬((curr[i]).Rpackets + (curr[i]).Tpackets = 0))
    (hitv : 0 < (curr[i]).Uptime - (prev[i]).Uptime) :
    ∃ st, countNetdevsUsage prev curr ticks = some st ∧
      ∃ e, st[i]? = some e ∧
        (e.Rbytes = ((curr[i]).Rbytes - (prev[i]).Rbytes) / ((curr[i]).Uptime - (prev[i]).Uptime) * ticks
          ∧ e.Tbytes = ((curr[i]).Tbytes - (prev[i]).Tbytes) / ((curr[i]).Uptime - (prev[i]).Uptime) * ticks
          ∧ e.Rpackets = ((curr[i]).Rpackets - (prev[i]).Rpackets) / ((curr[i]).Uptime - (prev[i]).Uptime) * ticks
          ∧ e.Tpackets = ((curr[i]).Tpackets - (prev[i]).Tpackets) / ((curr[i]).Uptime - (prev[i]).Uptime) * ticks
          ∧ e.Rerrs = ((curr[i]).Rerrs - (prev[i]).Rerrs) / ((curr[i]).Uptime - (prev[i]).Uptime) * ticks
          ∧ e.Terrs = ((curr[i]).Terrs - (prev[i]).Terrs) / ((curr[i]).Uptime - (prev[i]).Uptime) * ticks
          ∧ e.Tcolls = ((curr[i]).Tcolls - (prev[i]).Tcolls) / ((curr[i]).Uptime - (prev[i]).Uptime) * ticks
          ∧ e.Saturation = ((curr[i]).Saturation - (prev[i]).Saturation) / ((curr[i]).Uptime - (prev[i]).Uptime) * ticks)
        ∧ (0 ≤ ticks →
            ((prev[i]).Rbytes ≤ (curr[i]).Rbytes → 0 ≤ e.Rbytes)
            ∧ ((prev[i]).Tbytes ≤ (curr[i]).Tbytes → 0 ≤ e.Tbytes)
            ∧ ((prev[i]).Rpackets ≤ (curr[i]).Rpackets → 0 ≤ e.Rpackets)
            ∧ ((prev[i]).Tpackets ≤ (curr[i]).Tpackets → 0 ≤ e.Tpackets)
            ∧ ((prev[i]).Rerrs ≤ (curr[i]).Rerrs → 0 ≤ e.Rerrs)
            ∧ ((prev[i]).Terrs ≤ (curr[i]).Terrs → 0 ≤ e.Terrs)
            ∧ ((prev[i]).Tcolls ≤ (curr[i]).Tcolls → 0 ≤ e.Tcolls)
            ∧ ((prev[i]).Saturation ≤ (curr[i]).Saturation → 0 ≤ e.Saturation)) := by
  obtain ⟨st, h1, _, h3⟩ := countNetdevsUsage_entry prev curr ticks i hlen hic hip
  refine ⟨st, h1, _, h3, ?_, ?_⟩
  · unfold countNetdevUsageOne
    rw [if_neg hact]
    dsimp only
    unfold sValue
    exact ⟨rfl, rfl, rfl, rfl, rfl, rfl, rfl, rfl⟩
  · intro hticks
    unfold countNetdevUsageOne
    rw [if_neg hact]
    dsimp only
    exact ⟨fun h => sValue_nonneg _ _ _ _ h hitv hticks,
      fun h => sValue_nonneg _ _ _ _ h hitv hticks,
      fun h => sValue_nonneg _ _ _ _ h hitv hticks,
      fun h => sValue_nonneg _ _ _ _ h hitv hticks,
      fun h => sValue_nonneg _ _ _ _ h hitv hticks,
      fun h => sValue_nonneg _ _ _ _ h hitv hticks,
      fun h => sValue_nonneg _ _ _ _ h hitv hticks,
      fun h => sValue_nonneg _ _ _ _ h hitv hticks⟩

/-- Witness for C3 at a concrete input: bytes grow by 1000 over an interval
of 1 with ticks 100, so the received byte rate is 100000 and non-negative. -/
theorem claim_C3_witness :
    ∃ st, countNetdevsUsage [prevSample] [currSample] 100 = some st ∧
      ∃ e, st[0]? = some e ∧ e.Rbytes = 100000 ∧ 0 ≤ e.Rbytes := by
  obtain ⟨st, h1, e, h2, heqs, hB⟩ :=
    claim_C3 [prevSample] [currSample] 100 0 rfl (by simp) (by simp)
      (by norm_num [currSample, Netdev.empty])
      (by norm_num [currSample, prevSample, Netdev.empty])
  refine ⟨st, h1, e, h2, ?_, ?_⟩
  · rw [heqs.1]
    norm_num [currSample, prevSample, Netdev.empty]
  · exact (hB (by norm_num)).1 (by norm_num [currSample, prevSample, Netdev.empty])

/-- Claim C4: an active entry whose current link speed is 0 has all three
utilization fields equal to 0, whatever the duplex mode and byte rates. -/
theorem claim_C4 (prev curr : List Netdev) (ticks : ℚ) (i : Nat)
    (hlen : curr.length = prev.length) (hic : i < curr.length)
    (hact : ¬((curr[i]).Rpackets + (curr[i]).Tpackets = 0))
    (hspeed : (curr[i]).Speed = 0) :
    ∃ st, countNetdevsUsage prev curr ticks = some st ∧
      ∃ e, st[i]? = some e ∧ e.Rutil = 0 ∧ e.Tutil = 0 ∧ e.Utilization = 0 := by
  obtain ⟨st, h1, _, h3⟩ :=
    countNetdevsUsage_entry prev curr ticks i hlen hic (hlen ▸ hic)
  have hns : ¬(0 < (curr[i]).Speed) := by
    rw [hspeed]
    exact lt_irrefl 0
  refine ⟨st, h1, _, h3, ?_, ?_, ?_⟩ <;>
  · unfold countNetdevUsageOne
    rw [if_neg hact]
    dsimp only
    rw [if_neg hns]

/-- Witness for C4 at a concrete input: an active interface with speed 0. -/
theorem claim_C4_witness :
    ∃ st, countNetdevsUsage [prevSample] [{ currSample with Speed := 0 }] 100 = some st ∧
      ∃ e, st[0]? = some e ∧ e.Rutil = 0 ∧ e.Tutil = 0 ∧ e.Utilization = 0 :=
  claim_C4 [prevSample] [{ currSample with Speed := 0 }] 100 0 rfl (by simp)
    (by norm_num [currSample, Netdev.empty]) (by simp [currSample, Netdev.empty])

/-- Claim C5: an active entry with positive link speed and full duplex has
overall utilization equal to `max Rutil Tutil`, hence at least each. -/
theorem claim_C5 (prev curr : List Netdev) (ticks : ℚ) (i : Nat)
    (hlen : curr.length = prev.length) (hic : i < curr.length)
    (hact : ¬((curr[i]).Rpackets + (curr[i]).Tpackets = 0))
    (hspeed : 0 < (curr[i]).Speed)
    (hdup : (curr[i]).Duplex = duplexFull) :
    ∃ st, countNetdevsUsage prev curr ticks = some st ∧
      ∃ e, st[i]? = some e ∧ e.Utilization = max e.Rutil e.Tutil ∧
        e.Rutil ≤ e.Utilization ∧ e.Tutil ≤ e.Utilization := by
  obtain ⟨st, h1, _, h3⟩ :=
    countNetdevsUsage_entry prev curr ticks i hlen hic (hlen ▸ hic)
  have hmain : (countNetdevUsageOne ticks prev[i] curr[i]).Utilization
      = max (countNetdevUsageOne ticks prev[i] curr[i]).Rutil
          (countNetdevUsageOne ticks prev[i] curr[i]).Tutil := by
    unfold countNetdevUsageOne
    rw [if_neg hact]
    dsimp only
    simp only [if_pos hspeed, if_pos hdup]
  refine ⟨st, h1, _, h3, hmain, ?_, ?_⟩
  · rw [hmain]
    exact le_max_left _ _
  · rw [hmain]
    exact le_max_right _ _

/-- Witness for C5 at a concrete input: a full-duplex 1000 bps interface. -/
theorem claim_C5_witness :
    ∃ st, countNetdevsUsage [prevSample] [currSample] 100 = some st ∧
      ∃ e, st[0]? = some e ∧ e.Utilization = max e.Rutil e.Tutil ∧
        e.Rutil ≤ e.Utilization ∧ e.Tutil ≤ e.Utilization :=
  claim_C5 [prevSample] [currSample] 100 0 rfl (by simp)
    (by norm_num [currSample, Netdev.empty])
    (by simp [currSample, Netdev.empty])
    (by simp [currSample, Netdev.empty, duplexFull])

/-- Claim C6: an active entry with positive link speed and half duplex has
overall utilization `min((Rbytes + Tbytes) * 8 * 100 / speed, 100)`, so it
never exceeds 100 even when the summed byte rate exceeds link capacity. -/
theorem claim_C6 (prev curr : List Netdev) (ticks : ℚ) (i : Nat)
    (hlen : curr.length = prev.length) (hic : i < curr.length)
    (hact : ¬((curr[i]).Rpackets + (curr[i]).Tpackets = 0))
    (hspeed : 0 < (curr[i]).Speed)
    (hdup : (curr[i]).Duplex = duplexHalf) :
    ∃ st, countNetdevsUsage prev curr ticks = some st ∧
      ∃ e, st[i]? = some e ∧
        e.Utilization = min ((e.Rbytes + e.Tbytes) * 8 * 100 / ((curr[i]).Speed : ℚ)) 100 ∧
        e.Utilization ≤ 100 := by
  obtain ⟨st, h1, _, h3⟩ :=
    countNetdevsUsage_entry prev curr ticks i hlen hic (hlen ▸ hic)
  have hnf : ¬((curr[i]).Duplex = duplexFull) := by
    rw [hdup]
    decide
  have hmain : (countNetdevUsageOne ticks prev[i] curr[i]).Utilization
      = min (((countNetdevUsageOne ticks prev[i] curr[i]).Rbytes
            + (countNetdevUsageOne ticks prev[i] curr[i]).Tbytes)
          * 8 * 100 / ((curr[i]).Speed : ℚ)) 100 := by
    unfold countNetdevUsageOne
    rw [if_neg hact]
    dsimp only
    simp only [if_pos hspeed, if_neg hnf, if_pos hdup]
    congr 1
    ring
  refine ⟨st, h1, _, h3, hmain, ?_⟩
  rw [hmain]
  exact min_le_right _ _

/-- Witness for C6 at a concrete input: a half-duplex 1000 bps interface whose
summed byte rate far exceeds link capacity. -/
theorem claim_C6_witness :
    ∃ st, countNetdevsUsage [prevSample] [{ currSample with Duplex := duplexHalf }] 100
        = some st ∧
      ∃ e, st[0]? = some e ∧
        e.Utilization = min ((e.Rbytes + e.Tbytes) * 8 * 100
          / (({ currSample with Duplex := duplexHalf } : Netdev).Speed : ℚ)) 100 ∧
        e.Utilization ≤ 100 :=
  claim_C6 [prevSample] [{ currSample with Duplex := duplexHalf }] 100 0 rfl (by simp)
    (by norm_num [currSample, Netdev.empty])
    (by simp [currSample, Netdev.empty])
    (by simp [currSample, Netdev.empty, duplexHalf])

/-- Claim C7: an active entry with positive link speed and unknown duplex
(neither the full- nor the half-duplex constant) still has both directional
utilizations computed as `min(byteRate * 8 * 100 / speed, 100)`, while the
overall utilization is left at 0. -/
theorem claim_C7 (prev curr : List Netdev) (ticks : ℚ) (i : Nat)
    (hlen : curr.length = prev.length) (hic : i < curr.length)
    (hact : ¬((curr[i]).Rpackets + (curr[i]).Tpackets = 0))
    (hspeed : 0 < (curr[i]).Speed)
    (hnf : ¬((curr[i]).Duplex = duplexFull))
    (hnh : ¬((curr[i]).Duplex = duplexHalf)) :
    ∃ st, countNetdevsUsage prev curr ticks = some st ∧
      ∃ e, st[i]? = some e ∧
        e.Rutil = min (e.Rbytes * 8 * 100 / ((curr[i]).Speed : ℚ)) 100 ∧
        e.Tutil = min (e.Tbytes * 8 * 100 / ((curr[i]).Speed : ℚ)) 100 ∧
        e.Utilization = 0 := by
  obtain ⟨st, h1, _, h3⟩ :=
    countNetdevsUsage_entry prev curr ticks i hlen hic (hlen ▸ hic)
  refine ⟨st, h1, _, h3, ?_, ?_, ?_⟩
  · unfold countNetdevUsageOne
    rw [if_neg hact]
    dsimp only
    simp only [if_pos hspeed]
    congr 1
    ring
  · unfold countNetdevUsageOne
    rw [if_neg hact]
    dsimp only
    simp only [if_pos hspeed]
    congr 1
    ring
  · unfold countNetdevUsageOne
    rw [if_neg hact]
    dsimp only
    simp only [if_pos hspeed, if_neg hnf, if_neg hnh]

/-- Witness for C7 at a concrete input: an interface whose duplex value is the
unknown marker. -/
theorem claim_C7_witness :
    ∃ st, countNetdevsUsage [prevSample] [{ currSample with Duplex := duplexUnknown }] 100
        = some st ∧
      ∃ e, st[0]? = some e ∧
        e.Rutil = min (e.Rbytes * 8 * 100
          / (({ currSample with Duplex := duplexUnknown } : Netdev).Speed : ℚ)) 100 ∧
        e.Tutil = min (e.Tbytes * 8 * 100
          / (({ currSample with Duplex := duplexUnknown } : Netdev).Speed : ℚ)) 100 ∧
        e.Utilization = 0 :=
  claim_C7 [prevSample] [{ currSample with Duplex := duplexUnknown }] 100 0 rfl (by simp)
    (by norm_num [currSample, Netdev.empty])
    (by simp [currSample, Netdev.empty])
    (by simp [currSample, Netdev.empty, duplexUnknown, duplexFull])
    (by simp [currSample, Netdev.empty, duplexUnknown, duplexHalf])

/-! ### Acquisition helper lemmas -/

theorem enrichLocal_Ifname (u : ℚ) (l : String → Nat × Nat) (r : NetdevRow) :
    (enrichLocal u l r).Ifname = r.ifname := rfl

theorem enrichRemote_Ifname (u : ℚ) (sd : Nat × Nat) (r : NetdevRow) :
    (enrichRemote u sd r).Ifname = r.ifname := rfl

theorem enrichRemote_Saturation (u : ℚ) (sd : Nat × Nat) (r : NetdevRow) :
    (enrichRemote u sd r).Saturation = 0 := rfl

theorem readNetdevsLocal_mem (rows : List NetdevRow) (up : ℚ)
    (link : String → Nat × Nat) :
    ∀ m ∈ readNetdevsLocal rows up link,
      ∃ r ∈ rows, isPseudoNetdev r.ifname = false ∧ m.Ifname = r.ifname := by
  intro m hm
  simp only [readNetdevsLocal, List.mem_map, List.mem_filter] at hm
  obtain ⟨r, ⟨hr, hfl⟩, rfl⟩ := hm
  exact ⟨r, hr, by simpa using hfl, rfl⟩

theorem readNetdevsLocal_retain (rows : List NetdevRow) (up : ℚ)
    (link : String → Nat × Nat) (r : NetdevRow) (hr : r ∈ rows)
    (hfl : isPseudoNetdev r.ifname = false) :
    r.ifname ∈ (readNetdevsLocal rows up link).map Netdev.Ifname := by
  have h1 : enrichLocal up link r ∈ readNetdevsLocal rows up link :=
    List.mem_map.2 ⟨r, List.mem_filter.2 ⟨hr, by simp [hfl]⟩, rfl⟩
  exact List.mem_map.2 ⟨_, h1, rfl⟩

theorem readNetdevsRemote_mem (up : ℚ) (link : String → Except String (Nat × Nat)) :
    ∀ (rows : List NetdevRow) (out : List Netdev),
      readNetdevsRemote up link rows = Except.ok out →
      ∀ m ∈ out,
        ∃ r ∈ rows, isPseudoNetdev r.ifname = false
          ∧ m.Ifname = r.ifname ∧ m.Saturation = 0 := by
  intro rows
  induction rows with
  | nil =>
    intro out h m hm
    simp only [readNetdevsRemote] at h
    obtain rfl := Except.ok.inj h
    simp at hm
  | cons r0 rs ih =>
    intro out h m hm
    simp only [readNetdevsRemote] at h
    by_cases hp : isPseudoNetdev r0.ifname = true
    · rw [if_pos hp] at h
      obtain ⟨r, hr, hfl, hnm, hsat⟩ := ih out h m hm
      exact ⟨r, List.mem_cons_of_mem _ hr, hfl, hnm, hsat⟩
    · rw [if_neg hp] at h
      cases hl : link r0.ifname with
      | error e =>
        rw [hl] at h
        simp at h
      | ok sd =>
        rw [hl] at h
        cases hrec : readNetdevsRemote up link rs with
        | error e =>
          rw [hrec] at h
          simp at h
        | ok rest =>
          rw [hrec] at h
          obtain rfl := Except.ok.inj h
          rcases List.mem_cons.1 hm with rfl | hm2
          · exact ⟨r0, by simp, by simpa using hp, rfl, rfl⟩
          · obtain ⟨r, hr, hfl, hnm, hsat⟩ := ih rest hrec m hm2
            exact ⟨r, List.mem_cons_of_mem _ hr, hfl, hnm, hsat⟩

theorem readNetdevsRemote_retain (up : ℚ) (link : String → Except String (Nat × Nat)) :
    ∀ (rows : List NetdevRow) (out : List Netdev),
      readNetdevsRemote up link rows = Except.ok out →
      ∀ r ∈ rows, isPseudoNetdev r.ifname = false →
        r.ifname ∈ out.map Netdev.Ifname := by
  intro rows
  induction rows with
  | nil =>
    intro out h r hr
    simp at hr
  | cons r0 rs ih =>
    intro out h r hr hfl
    simp only [readNetdevsRemote] at h
    by_cases hp : isPseudoNetdev r0.ifname = true
    · rw [if_pos hp] at h
      rcases List.mem_cons.1 hr with rfl | hr2
      · rw [hfl] at hp
        cases hp
      · exact ih out h r hr2 hfl
    · rw [if_neg hp] at h
      cases hl : link r0.ifname with
      | error e =>
        rw [hl] at h
        simp at h
      | ok sd =>
        rw [hl] at h
        cases hrec : readNetdevsRemote up link rs with
        | error e =>
          rw [hrec] at h
          simp at h
        | ok rest =>
          rw [hrec] at h
          obtain rfl := Except.ok.inj h
          rcases List.mem_cons.1 hr with rfl | hr2
          · simp [enrichRemote_Ifname]
          · simp only [List.map_cons]
            exact List.mem_cons_of_mem _ (ih rest hrec r hr2 hfl)

theorem countNetdevUsageOne_sat (ticks : ℚ) (p c : Netdev)
    (hp : p.Saturation = 0) (hc : c.Saturation = 0) :
    (countNetdevUsageOne ticks p c).Saturation = 0 := by
  unfold countNetdevUsageOne
  by_cases hact : c.Rpackets + c.Tpackets = 0
  · rw [if_pos hact]
    rfl
  · rw [if_neg hact]
    dsimp only
    rw [hp, hc]
    unfold sValue
    simp

theorem zipWith_sat_zero (prev : List Netdev) :
    ∀ (curr : List Netdev) (ticks : ℚ),
      (∀ p ∈ prev, p.Saturation = 0) → (∀ c ∈ curr, c.Saturation = 0) →
      ∀ m ∈ List.zipWith (countNetdevUsageOne ticks) prev curr, m.Saturation = 0 := by
  induction prev with
  | nil =>
    intro curr ticks _ _ m hm
    simp at hm
  | cons p ps ih =>
    intro curr ticks hp hc m hm
    cases curr with
    | nil => simp at hm
    | cons c cs =>
      simp only [List.zipWith_cons_cons] at hm
      rcases List.mem_cons.1 hm with rfl | hm2
      · exact countNetdevUsageOne_sat ticks p c (hp p (by simp)) (hc c (by simp))
      · exact ih cs ticks (fun q hq => hp q (by simp [hq]))
          (fun q hq => hc q (by simp [hq])) m hm2

/-- Claim C8: on both acquisition paths, every interface whose name contains
`docker`, `virbr` or `veth` is excluded from the returned snapshot, every
interface whose name contains none of them is retained, and the filter
classifies the spec's examples accordingly. -/
theorem claim_C8 :
    (∀ (rows : List NetdevRow) (up : ℚ) (link : String → Nat × Nat),
        ∀ m ∈ readNetdevsLocal rows up link, isPseudoNetdev m.Ifname = false)
    ∧ (∀ (rows : List NetdevRow) (up : ℚ) (link : String → Nat × Nat),
        ∀ r ∈ rows, isPseudoNetdev r.ifname = false →
          r.ifname ∈ (readNetdevsLocal rows up link).map Netdev.Ifname)
    ∧ (∀ (up : ℚ) (link : String → Except String (Nat × Nat))
        (rows : List NetdevRow) (out : List Netdev),
        readNetdevsRemote up link rows = Except.ok out →
        ∀ m ∈ out, isPseudoNetdev m.Ifname = false)
    ∧ (∀ (up : ℚ) (link : String → Except String (Nat × Nat))
        (rows : List NetdevRow) (out : List Netdev),
        readNetdevsRemote up link rows = Except.ok out →
        ∀ r ∈ rows, isPseudoNetdev r.ifname = false →
          r.ifname ∈ out.map Netdev.Ifname)
    ∧ isPseudoNetdev "docker0" = true
    ∧ isPseudoNetdev "veth1a2b3c" = true
    ∧ isPseudoNetdev "virbr0-nic" = true
    ∧ isPseudoNetdev "eth0" = false
    ∧ isPseudoNetdev "wlan0" = false
    ∧ isPseudoNetdev "enp3s0" = false := by
  refine ⟨?_, ?_, ?_, ?_, by decide, by decide, by decide, by decide, by decide, by decide⟩
  · intro rows up link m hm
    obtain ⟨r, _, hfl, hnm⟩ := readNetdevsLocal_mem rows up link m hm
    rw [hnm]
    exact hfl
  · intro rows up link r hr hfl
    exact readNetdevsLocal_retain rows up link r hr hfl
  · intro up link rows out h m hm
    obtain ⟨r, _, hfl, hnm, _⟩ := readNetdevsRemote_mem up link rows out h m hm
    rw [hnm]
    exact hfl
  · intro up link rows out h r hr hfl
    exact readNetdevsRemote_retain up link rows out h r hr hfl

/-- Claim C10: every sample of a successful remote acquisition has
`Saturation = 0` (the remote path never assigns the field the local path
pre-computes), so the delta of two remote snapshots has saturation rate 0 in
every entry. -/
theorem claim_C10 (up up2 : ℚ) (link link2 : String → Except String (Nat × Nat))
    (rows rows2 : List NetdevRow) (out prevOut : List Netdev) (ticks : ℚ)
    (st : List Netdev)
    (h : readNetdevsRemote up link rows = Except.ok out)
    (h2 : readNetdevsRemote up2 link2 rows2 = Except.ok prevOut)
    (h3 : countNetdevsUsage prevOut out ticks = some st) :
    (∀ m ∈ out, m.Saturation = 0) ∧ (∀ m ∈ st, m.Saturation = 0) := by
  have hout : ∀ m ∈ out, m.Saturation = 0 := by
    intro m hm
    obtain ⟨r, _, _, _, hs⟩ := readNetdevsRemote_mem up link rows out h m hm
    exact hs
  have hprev : ∀ m ∈ prevOut, m.Saturation = 0 := by
    intro m hm
    obtain ⟨r, _, _, _, hs⟩ := readNetdevsRemote_mem up2 link2 rows2 prevOut h2 m hm
    exact hs
  refine ⟨hout, ?_⟩
  unfold countNetdevsUsage at h3
  by_cases hlen : out.length ≠ prevOut.length
  · rw [if_pos hlen] at h3
    simp at h3
  · rw [if_neg hlen] at h3
    obtain rfl := Option.some.inj h3
    exact zipWith_sat_zero prevOut out ticks hprev hout

/-- A concrete scanned record for the witnesses: interface `eth0`. -/
def rowEth0 : NetdevRow :=
  { ifname := "eth0", rbytes := 1000, rpackets := 4, rerrs := 0, rdrop := 0,
    rfifo := 0, rframe := 0, rcompressed := 0, rmulticast := 0, tbytes := 500,
    tpackets := 2, terrs := 0, tdrop := 0, tfifo := 0, tcolls := 0, tcarrier := 0,
    tcompressed := 0 }

/-- The same interface one poll later. -/
def rowEth0Curr : NetdevRow :=
  { rowEth0 with
    rbytes := 2000, rpackets := 10, tbytes := 1500, tpackets := 5 }

/-- A link-settings oracle that always answers 1000 bps, full duplex. -/
def linkOk : String → Except String (Nat × Nat) :=
  fun _ => Except.ok (1000, 1)

/-- Witness for C10 at a concrete input: two one-row remote acquisitions and
their delta. -/
theorem claim_C10_witness :
    (∀ m ∈ [enrichRemote 2 (1000, 1) rowEth0Curr], m.Saturation = 0) ∧
    (∀ m ∈ List.zipWith (countNetdevUsageOne 100)
        [enrichRemote 1 (1000, 1) rowEth0] [enrichRemote 2 (1000, 1) rowEth0Curr],
      m.Saturation = 0) :=
  claim_C10 2 1 linkOk linkOk [rowEth0Curr] [rowEth0]
    [enrichRemote 2 (1000, 1) rowEth0Curr] [enrichRemote 1 (1000, 1) rowEth0] 100
    (List.zipWith (countNetdevUsageOne 100) [enrichRemote 1 (1000, 1) rowEth0]
      [enrichRemote 2 (1000, 1) rowEth0Curr])
    (by rfl) (by rfl) (by rfl)
